import Mathlib

/-!
Verification of the bth-algo organization reconciliation CLI.

The development shallowly embeds the JavaScript sources:
  * `src/utils/settings-diff.js`  — `SettingsDiff.compare` / `SettingsDiff.isEqual`
  * `src/utils/prompt.js`         — `PromptManager.confirm`, `BackupManager.createBackup`
  * `src/services/branch.service.js` (OrganizationService part) — team lookup,
    bypass-actor resolution, ruleset/team/member remote operations
  * the `configure-org` and `restore-org` command actions of the CLI entry file.

JavaScript values are modelled by the inductive `JsVal` (numbers as `Int`,
which is enough for all configuration data appearing here).  Remote calls are
modelled as emitted `RemoteCall` values; remote failures and interactive
confirmations are supplied as oracle functions, so each command phase becomes
a pure function producing an `ApplyOutcome` (the successful/skipped/failed
string lists of the source plus the trace of attempted write calls).
-/

/-- Model of a JavaScript (JSON-like) runtime value as manipulated by the CLI.
`undefined` is the `undefined` missing-value marker, which in JS is distinct from
`null`.  Numbers are modelled as integers (all values handled by the tool are
JSON configuration data). -/
inductive JsVal where
  | null
  | undefined
  | bool (b : Bool)
  | num (n : Int)
  | str (s : String)
  | arr (elems : List JsVal)
  | obj (fields : List (String × JsVal))

/-- JavaScript strict equality `a === b` restricted to the values the tool
handles.  Two primitives are `===` iff they are the same value; two distinct
composite objects are never `===` (reference equality; the compared values
in this program always come from different sources). -/
def strictEq : JsVal → JsVal → Bool
  | .null, .null => true
  | .undefined, .undefined => true
  | .bool a, .bool b => a == b
  | .num a, .num b => a == b
  | .str a, .str b => a == b
  | _, _ => false

/-- JavaScript loose `a == null`, true exactly for `null` and `undefined`. -/
def isNullish : JsVal → Bool
  | .null => true
  | .undefined => true
  | _ => false

/-- JavaScript `typeof`.  Note `typeof null === 'object'` and arrays are
`'object'` as well. -/
def jsTypeof : JsVal → String
  | .undefined => "undefined"
  | .null => "object"
  | .bool _ => "boolean"
  | .num _ => "number"
  | .str _ => "string"
  | .arr _ => "object"
  | .obj _ => "object"

/-- `Object.entries` / own enumerable properties of a value.  For an array the
keys are the decimal index strings in order; for a non-object value there are
none. -/
def jsEntries : JsVal → List (String × JsVal)
  | .obj fields => fields
  | .arr elems => (List.range elems.length).map (fun i => (toString i, elems.getD i .undefined))
  | _ => []

/-- `Object.keys`. -/
def jsKeys (v : JsVal) : List String := (jsEntries v).map Prod.fst

/-- JavaScript property access `v[k]`, yielding `undefined` when absent. -/
def getProp (v : JsVal) (k : String) : JsVal :=
  match (jsEntries v).find? (fun p => p.1 == k) with
  | some p => p.2
  | none => .undefined

namespace SettingsDiff

mutual

/-- `SettingsDiff.isEqual(a, b)` (settings-diff.js, lines 49-69): `true` on
strict equality; `false` if either side is nullish (so `null` vs `undefined`
is `false`, both being non-strictly-equal and nullish) or the `typeof`s
differ; for two `'object'`-typed values, compare key counts and then each key
of `a` recursively against `b`'s corresponding property. -/
def isEqual (a b : JsVal) : Bool :=
  if strictEq a b then true
  else if isNullish a || isNullish b then false
  else if jsTypeof a != jsTypeof b then false
  else
    match a with
    | .arr elems => (elems.length == (jsKeys b).length) && isEqualElems elems 0 b
    | .obj fields => (fields.length == (jsKeys b).length) && isEqualFields fields b
    | _ => false
termination_by structural a

/-- The `for (const key of aKeys)` loop of `isEqual` when `a` is an array:
key `i` of `a` must be a key of `b` and the elements must be `isEqual`. -/
def isEqualElems : List JsVal → Nat → JsVal → Bool
  | [], _, _ => true
  | v :: rest, i, b =>
    ((jsKeys b).contains (toString i) && isEqual v (getProp b (toString i))) &&
    isEqualElems rest (i + 1) b
termination_by structural elems i b => elems

/-- The `for (const key of aKeys)` loop of `isEqual` when `a` is a plain
object. -/
def isEqualFields : List (String × JsVal) → JsVal → Bool
  | [], _ => true
  | kv :: rest, b =>
    ((jsKeys b).contains kv.1 && isEqual kv.2 (getProp b kv.1)) &&
    isEqualFields rest b
termination_by structural fields b => fields

end

/-- The change kinds emitted by `SettingsDiff.compare`. -/
inductive ChangeType where
  | add
  | update
  | remove
deriving DecidableEq

/-- One element of the change list produced by `SettingsDiff.compare`. -/
structure Change where
  key : String
  type : ChangeType
  currentValue : JsVal
  newValue : JsVal

/-- A JavaScript object used as a settings map: an ordered association list of
own enumerable properties.  A real JS object has pairwise distinct keys; the
theorems assume that where it matters. -/
abbrev SettingsMap := List (String × JsVal)

/-- Property read `m[k]` on a settings map (`undefined` when the key is
absent). -/
def getVal (m : SettingsMap) (k : String) : JsVal :=
  match m.find? (fun p => p.1 == k) with
  | some p => p.2
  | none => .undefined

/-- JavaScript `k in m`. -/
def hasKey (m : SettingsMap) (k : String) : Bool :=
  (m.find? (fun p => p.1 == k)).isSome

/-- `SettingsDiff.compare(current, desired)` (settings-diff.js, lines 11-41):
first walk `desired`'s entries emitting `add`/`update` for values that are not
deeply equal (`add` exactly when `current[key] === undefined`), then walk
`current`'s entries emitting `remove` for keys not `in` `desired`. -/
def compare (current desired : SettingsMap) : List Change :=
  (desired.filterMap fun p =>
    let currentValue := getVal current p.1
    if isEqual currentValue p.2 then none
    else some { key := p.1
                type := if strictEq currentValue .undefined then .add else .update
                currentValue := currentValue
                newValue := p.2 })
  ++ (current.filterMap fun p =>
    if hasKey desired p.1 then none
    else some { key := p.1, type := .remove, currentValue := p.2, newValue := .undefined })

end SettingsDiff

namespace PromptManager

/-- JavaScript `String.prototype.trim`: strip leading and trailing
whitespace. -/
def jsTrim (cs : List Char) : List Char :=
  ((cs.dropWhile Char.isWhitespace).reverse.dropWhile Char.isWhitespace).reverse

/-- JavaScript `String.prototype.toLowerCase` (ASCII case mapping suffices for
the answers compared here). -/
def jsToLower (cs : List Char) : List Char := cs.map Char.toLower

/-- `PromptManager.confirm` (prompt.js, lines 39-48), as a function of the
answer string typed by the user: the promise resolves to
`normalized !== 'n' && normalized !== 'no'` where `normalized` is the answer
trimmed and lowercased.  In particular an empty answer is affirmative. -/
def confirm (answer : String) : Bool :=
  let normalized := jsToLower (jsTrim answer.toList)
  normalized != "n".toList && normalized != "no".toList

end PromptManager

namespace BackupManager

/-- The character substitution of `.replace(/[:.]/g, '-')` in
`BackupManager.createBackup` (backup utility, lines 96-118). -/
def replaceColonDot (c : Char) : Char :=
  if c = ':' || c = '.' then '-' else c

/-- JavaScript `.replace('T', '_')` with a string pattern replaces only the
first occurrence. -/
def replaceFirstT : List Char → List Char
  | [] => []
  | c :: rest => if c = 'T' then '_' :: rest else c :: replaceFirstT rest

/-- `.split('.')[0]`: everything before the first `'.'` (the whole string when
no `'.'` is present). -/
def beforeFirstDot (cs : List Char) : List Char :=
  cs.takeWhile (fun c => c ≠ '.')

/-- The timestamp part of the backup filename computed by
`BackupManager.createBackup` from `new Date().toISOString()`:
`.replace(/[:.]/g, '-').replace('T', '_').split('.')[0]`.  Note that after the
first replacement no `'.'` remains, so the final `.split('.')[0]` keeps the
whole string — including the transformed milliseconds part. -/
def backupTimestamp (iso : List Char) : List Char :=
  beforeFirstDot (replaceFirstT (iso.map replaceColonDot))

/-- The filename `backup-${timestamp}.json` written by `createBackup`. -/
def backupFilename (iso : List Char) : List Char :=
  "backup-".toList ++ backupTimestamp iso ++ ".json".toList

/-- A wall-clock instant at the resolution used by JavaScript `Date`
(milliseconds). -/
structure Timestamp where
  y : Nat
  mo : Nat
  d : Nat
  h : Nat
  mi : Nat
  s : Nat
  ms : Nat
deriving DecidableEq

/-- Zero-padding to a fixed width, as used by `Date.prototype.toISOString`. -/
def padNum (w n : Nat) : List Char :=
  let digits := (toString n).toList
  List.replicate (w - digits.length) '0' ++ digits

/-- `new Date(t).toISOString()`: `YYYY-MM-DDTHH:mm:ss.sssZ`. -/
def toISOString (t : Timestamp) : List Char :=
  padNum 4 t.y ++ [ '-'] ++ padNum 2 t.mo ++ [ '-'] ++ padNum 2 t.d ++ [ 'T'] ++
  padNum 2 t.h ++ [ ':'] ++ padNum 2 t.mi ++ [ ':'] ++ padNum 2 t.s ++
  [ '.'] ++ padNum 3 t.ms ++ [ 'Z']

/-- Two instants within the same second of wall-clock time. -/
def sameSecond (t u : Timestamp) : Bool :=
  t.y == u.y && t.mo == u.mo && t.d == u.d && t.h == u.h && t.mi == u.mi && t.s == u.s

end BackupManager

/-- A bypass-actor entry of a declared ruleset (branch.service.js,
`resolveBypassActors`): the declaration may reference a team symbolically via
the helper `team` field, which resolution replaces by `actor_id` (deleting
`team`, which the remote API does not accept). -/
structure BypassActor where
  actor_type : String
  team : Option String
  actor_id : Option Nat
  bypass_mode : String
deriving DecidableEq

/-- A declared organization ruleset, as read from `branch-rulesets.json`: the
name identifies it, `bypass_actors` is optional.  Rule conditions are not
modelled; they are passed through unchanged by the code paths verified here. -/
structure Ruleset where
  name : String
  bypass_actors : Option (List BypassActor)
deriving DecidableEq

/-- A ruleset as returned by the remote platform (`getBranchRulesets`): it
carries the remote numeric id used for updates. -/
structure RemoteRuleset where
  id : Nat
  name : String
deriving DecidableEq

/-- A declared team member (`teams.json`). -/
structure TeamMember where
  username : String
  role : String
deriving DecidableEq

/-- A declared team (`teams.json`).  Description/privacy/notification fields
are passed through verbatim and not modelled. -/
structure TeamConfig where
  name : String
  members : List TeamMember
deriving DecidableEq

/-- A team as returned by the remote platform (`getTeams`): matched against
declared teams by slug. -/
structure RemoteTeam where
  slug : String
deriving DecidableEq

/-- A mutating remote API request issued by the CLI.  Read-only requests are
not modelled; the oracles below supply their answers instead. -/
inductive RemoteCall where
  | setActionVariable (name : String) (value : JsVal)
  | setActionSecret (name : String) (value : JsVal)
  | updateMemberPrivileges (name : String) (value : JsVal)
  | createOrgRuleset (name : String) (bypassActors : Option (List BypassActor))
  | updateOrgRuleset (rulesetId : Nat) (name : String)
      (bypassActors : Option (List BypassActor))
  | createTeam (name : String)
  | updateTeam (slug : String) (name : String)
  | addTeamMember (slug : String) (username : String) (role : String)

/-- An interactive confirmation request, one constructor per prompt site of
the two commands.  `change` is `prompt.confirmChange(name, current, new)`. -/
inductive Prompt where
  | change (name : String) (currentValue newValue : JsVal)
  | updateRuleset (name : String)
  | createRuleset (name : String)
  | updateTeam (name : String)
  | createTeam (name : String)
  | restoreSecret (name : String)
  | applyLabels (repoCount : Nat)

/-- The `results` accumulator of `configure-org` / `restore-org`
(successful / skipped / failed description strings), extended with the trace
of mutating remote calls attempted during the run. -/
structure ApplyOutcome where
  successful : List String
  skipped : List String
  failed : List String
  calls : List RemoteCall

/-- The empty outcome. -/
def ApplyOutcome.empty : ApplyOutcome := ⟨[], [], [], []⟩

/-- Componentwise concatenation: running one code block after another appends
each results list and the call trace. -/
def ApplyOutcome.append (x y : ApplyOutcome) : ApplyOutcome :=
  ⟨x.successful ++ y.successful, x.skipped ++ y.skipped, x.failed ++ y.failed,
   x.calls ++ y.calls⟩

/-- The outcome of a sequence of independent loop iterations. -/
def concatOutcomes (l : List ApplyOutcome) : ApplyOutcome :=
  l.foldr ApplyOutcome.append ApplyOutcome.empty

namespace OrganizationService

/-- `OrganizationService.getTeamId(teamSlug)` (branch.service.js, lines
323-333): the team directory lookup is the `lookup` oracle; a missing team
makes the underlying API call throw 404 (`Not Found`), wrapped as shown. -/
def getTeamId (lookup : String → Option Nat) (teamSlug : String) :
    Except String Nat :=
  match lookup teamSlug with
  | some id => .ok id
  | none =>
    .error ("Failed to get team ID for \"" ++ teamSlug ++ "\": Not Found")

/-- `OrganizationService.resolveBypassActors(bypassActors)` (branch.service.js,
lines 340-364): copy each actor; for a `Team`-typed actor with a (truthy)
symbolic `team` name, look the name up, set `actor_id` and delete the helper
field; a failed lookup throws immediately (aborting the remaining actors)
with the symbolic name in the message. -/
def resolveBypassActors (lookup : String → Option Nat) :
    List BypassActor → Except String (List BypassActor)
  | [] => .ok []
  | a :: rest =>
    match a.team with
    | some t =>
      if a.actor_type == "Team" && t != "" then
        match getTeamId lookup t with
        | .ok id =>
          (resolveBypassActors lookup rest).map
            (fun rs => { a with actor_id := some id, team := none } :: rs)
        | .error msg =>
          .error ("Failed to resolve team \"" ++ t ++ "\": " ++ msg)
      else (resolveBypassActors lookup rest).map (a :: ·)
    | none => (resolveBypassActors lookup rest).map (a :: ·)

/-- `OrganizationService.createBranchRuleset(ruleset)` (branch.service.js,
lines 371-386) up to the remote call: resolve `bypass_actors` when present,
then issue `createOrgRuleset`.  Returns the calls issued and the error thrown,
if any; the `remoteFails` oracle decides whether the remote call throws.  Both
a resolution failure and a remote rejection are wrapped in
`Failed to create branch ruleset: ...`; on a resolution failure no remote
call is issued. -/
def tryCreateBranchRuleset (lookup : String → Option Nat)
    (remoteFails : RemoteCall → Option String) (rs : Ruleset) :
    List RemoteCall × Option String :=
  match rs.bypass_actors with
  | none =>
    let call := RemoteCall.createOrgRuleset rs.name none
    ([call], (remoteFails call).map ("Failed to create branch ruleset: " ++ ·))
  | some bas =>
    match resolveBypassActors lookup bas with
    | .error e => ([], some ("Failed to create branch ruleset: " ++ e))
    | .ok resolved =>
      let call := RemoteCall.createOrgRuleset rs.name (some resolved)
      ([call], (remoteFails call).map ("Failed to create branch ruleset: " ++ ·))

/-- `OrganizationService.updateBranchRuleset(rulesetId, ruleset)`
(branch.service.js, lines 394-410), analogous to
`tryCreateBranchRuleset`. -/
def tryUpdateBranchRuleset (lookup : String → Option Nat)
    (remoteFails : RemoteCall → Option String) (rulesetId : Nat)
    (rs : Ruleset) : List RemoteCall × Option String :=
  match rs.bypass_actors with
  | none =>
    let call := RemoteCall.updateOrgRuleset rulesetId rs.name none
    ([call], (remoteFails call).map ("Failed to update branch ruleset: " ++ ·))
  | some bas =>
    match resolveBypassActors lookup bas with
    | .error e => ([], some ("Failed to update branch ruleset: " ++ e))
    | .ok resolved =>
      let call := RemoteCall.updateOrgRuleset rulesetId rs.name (some resolved)
      ([call], (remoteFails call).map ("Failed to update branch ruleset: " ++ ·))

end OrganizationService

namespace ConfigureOrg

open SettingsDiff OrganizationService

/-- The slug derivation used to match declared teams against remote teams
(CLI entry, `configure-org` teams loop):
`desiredTeam.name.toLowerCase().replace(/\s+/g, '-')` — lowercase, each run of
whitespace collapsed to a single hyphen.  The `prev` flag tracks whether the
previous character belonged to a whitespace run. -/
def squashWs (prev : Bool) : List Char → List Char
  | [] => []
  | c :: rest =>
    if c.isWhitespace then
      if prev then squashWs true rest else '-' :: squashWs true rest
    else c :: squashWs false rest

/-- `name.toLowerCase().replace(/\s+/g, '-')`. -/
def slugify (name : String) : List Char :=
  squashWs false (PromptManager.jsToLower name.toList)

/-- One iteration of the `configure-org` action-variables loop (CLI entry,
lines 376-401): defensively re-check equality, then confirm, then call
`setActionVariable`, recording the outcome.  The thrown service error is
`Failed to set variable ${name}: ${message}`. -/
def stepVariable (oracle : Prompt → Bool)
    (remoteFails : RemoteCall → Option String) (precheck : Bool)
    (c : Change) : ApplyOutcome :=
  if precheck && isEqual c.currentValue c.newValue then ApplyOutcome.empty
  else if oracle (.change ("Variable: " ++ c.key) c.currentValue c.newValue) then
    let call := RemoteCall.setActionVariable c.key c.newValue
    match remoteFails call with
    | none => ⟨["Variable: " ++ c.key], [], [], [call]⟩
    | some msg =>
      ⟨[], [],
       ["Variable: " ++ c.key ++ " - Failed to set variable " ++ c.key ++ ": " ++ msg],
       [call]⟩
  else ⟨[], ["Variable: " ++ c.key], [], []⟩

/-- The `configure-org` action-variables phase: diff the current against the
desired variables and process each change (with the defensive `isEqual`
re-check of lines 377-381). -/
def configureVariables (oracle : Prompt → Bool)
    (remoteFails : RemoteCall → Option String)
    (currentVariables desiredVariables : SettingsMap) : ApplyOutcome :=
  concatOutcomes ((compare currentVariables desiredVariables).map
    (stepVariable oracle remoteFails true))

/-- One iteration of the `configure-org` action-secrets loop (CLI entry,
lines 413-444).  `update` changes that are (vacuously) `isEqual` are skipped
silently; a confirmed non-`remove` change issues `setActionSecret`
(service error `Failed to set secret ${name}: ${message}`); a confirmed
`remove` change is recorded as skipped with the manual-removal marker and
issues no call; a declined change is recorded as a plain skip. -/
def stepSecret (oracle : Prompt → Bool)
    (remoteFails : RemoteCall → Option String) (c : Change) : ApplyOutcome :=
  if c.type == .update && isEqual c.currentValue c.newValue then
    ApplyOutcome.empty
  else if oracle (.change ("Secret: " ++ c.key)
      (.str (if c.type == .add then "(not set)" else "***"))
      (.str (if c.type == .remove then "***" else "*** (will be set)"))) then
    if c.type != .remove then
      let call := RemoteCall.setActionSecret c.key c.newValue
      match remoteFails call with
      | none => ⟨["Secret: " ++ c.key], [], [], [call]⟩
      | some msg =>
        ⟨[], [],
         ["Secret: " ++ c.key ++ " - Failed to set secret " ++ c.key ++ ": " ++ msg],
         [call]⟩
    else ⟨[], ["Secret: " ++ c.key ++ " (removal not automated)"], [], []⟩
  else ⟨[], ["Secret: " ++ c.key], [], []⟩

/-- The `configure-org` action-secrets phase (CLI entry, lines 404-444):
build `currentSecrets` by masking every remote secret name with `'***'`, diff
against the desired secrets (from the env file), and process each change. -/
def configureSecrets (oracle : Prompt → Bool)
    (remoteFails : RemoteCall → Option String)
    (currentSecretNames : List String) (desiredSecrets : SettingsMap) :
    ApplyOutcome :=
  let currentSecrets : SettingsMap :=
    currentSecretNames.map (fun n => (n, JsVal.str "***"))
  concatOutcomes ((compare currentSecrets desiredSecrets).map
    (stepSecret oracle remoteFails))

/-- One iteration of the member-privileges loop (CLI entry, lines 454-479 for
`configure-org`, 784-803 for `restore-org`; the former has the defensive
equality precheck, the latter does not).  The thrown service error is
`Failed to update member privileges: ${message}`. -/
def stepPrivilege (oracle : Prompt → Bool)
    (remoteFails : RemoteCall → Option String) (precheck : Bool)
    (c : Change) : ApplyOutcome :=
  if precheck && isEqual c.currentValue c.newValue then ApplyOutcome.empty
  else if oracle (.change ("Privilege: " ++ c.key) c.currentValue c.newValue) then
    let call := RemoteCall.updateMemberPrivileges c.key c.newValue
    match remoteFails call with
    | none => ⟨["Privilege: " ++ c.key], [], [], [call]⟩
    | some msg =>
      ⟨[], [],
       ["Privilege: " ++ c.key ++ " - Failed to update member privileges: " ++ msg],
       [call]⟩
  else ⟨[], ["Privilege: " ++ c.key], [], []⟩

/-- The `configure-org` member-privileges phase. -/
def configurePrivileges (oracle : Prompt → Bool)
    (remoteFails : RemoteCall → Option String)
    (currentPrivileges desiredPrivileges : SettingsMap) : ApplyOutcome :=
  concatOutcomes ((compare currentPrivileges desiredPrivileges).map
    (stepPrivilege oracle remoteFails true))

/-- One iteration of the `configure-org` branch-rulesets loop (CLI entry,
lines 488-526): find an existing remote ruleset by name; confirm; then either
`updateBranchRuleset existing.id` or `createBranchRuleset`, recording
`Ruleset: ${name}` on success and `Ruleset: ${name} - ${error.message}` on
failure. -/
def stepRuleset (oracle : Prompt → Bool)
    (remoteFails : RemoteCall → Option String) (lookup : String → Option Nat)
    (currentRulesets : List RemoteRuleset) (rs : Ruleset) : ApplyOutcome :=
  match currentRulesets.find? (fun r => r.name == rs.name) with
  | some existing =>
    if oracle (.updateRuleset rs.name) then
      match tryUpdateBranchRuleset lookup remoteFails existing.id rs with
      | (calls, none) => ⟨["Ruleset: " ++ rs.name], [], [], calls⟩
      | (calls, some e) => ⟨[], [], ["Ruleset: " ++ rs.name ++ " - " ++ e], calls⟩
    else ⟨[], ["Ruleset: " ++ rs.name], [], []⟩
  | none =>
    if oracle (.createRuleset rs.name) then
      match tryCreateBranchRuleset lookup remoteFails rs with
      | (calls, none) => ⟨["Ruleset: " ++ rs.name], [], [], calls⟩
      | (calls, some e) => ⟨[], [], ["Ruleset: " ++ rs.name ++ " - " ++ e], calls⟩
    else ⟨[], ["Ruleset: " ++ rs.name], [], []⟩

/-- The `configure-org` branch-rulesets phase. -/
def configureRulesets (oracle : Prompt → Bool)
    (remoteFails : RemoteCall → Option String) (lookup : String → Option Nat)
    (currentRulesets : List RemoteRuleset) (desiredRulesets : List Ruleset) :
    ApplyOutcome :=
  concatOutcomes (desiredRulesets.map
    (stepRuleset oracle remoteFails lookup currentRulesets))

/-- One iteration of the inner member loop of the `configure-org` teams
phase (CLI entry, lines 550-558 and 581-589): upsert the member by
username+role; a throw is caught in the loop body, recording
`Team ${teamName} - Member ${username}` in `failed` and continuing with the
next member. -/
def stepMember (remoteFails : RemoteCall → Option String)
    (teamName : String) (slug : List Char) (m : TeamMember) : ApplyOutcome :=
  let call := RemoteCall.addTeamMember (String.mk slug) m.username m.role
  match remoteFails call with
  | none => ⟨[], [], [], [call]⟩
  | some _ => ⟨[], [], ["Team " ++ teamName ++ " - Member " ++ m.username], [call]⟩

/-- The member loop of one team. -/
def processMembers (remoteFails : RemoteCall → Option String)
    (teamName : String) (slug : List Char) (members : List TeamMember) :
    ApplyOutcome :=
  concatOutcomes (members.map (stepMember remoteFails teamName slug))

/-- One iteration of the `configure-org` teams loop (CLI entry, lines
535-601): match the declared team against remote slugs via `slugify`;
confirm; update (or create) the team; on success run the member loop and then
record `Team: ${name}` as successful — member failures were already recorded
individually and do not abort the team; a team-level throw records
`Team: ${name} - ${error.message}`.  For a created team the remote-assigned
slug (`createdTeam.slug`) is supplied by the `createdSlug` oracle. -/
def stepTeam (oracle : Prompt → Bool)
    (remoteFails : RemoteCall → Option String)
    (createdSlug : String → List Char) (currentTeams : List RemoteTeam)
    (dt : TeamConfig) : ApplyOutcome :=
  match currentTeams.find? (fun t => t.slug.toList == slugify dt.name) with
  | some existing =>
    if oracle (.updateTeam dt.name) then
      let call := RemoteCall.updateTeam existing.slug dt.name
      match remoteFails call with
      | some msg =>
        ⟨[], [],
         ["Team: " ++ dt.name ++ " - Failed to update team \"" ++ existing.slug ++ "\": " ++ msg],
         [call]⟩
      | none =>
        let mo := processMembers remoteFails dt.name existing.slug.toList dt.members
        ⟨["Team: " ++ dt.name], [], mo.failed, call :: mo.calls⟩
    else ⟨[], ["Team: " ++ dt.name], [], []⟩
  | none =>
    if oracle (.createTeam dt.name) then
      let call := RemoteCall.createTeam dt.name
      match remoteFails call with
      | some msg =>
        ⟨[], [],
         ["Team: " ++ dt.name ++ " - Failed to create team \"" ++ dt.name ++ "\": " ++ msg],
         [call]⟩
      | none =>
        let mo := processMembers remoteFails dt.name (createdSlug dt.name) dt.members
        ⟨["Team: " ++ dt.name], [], mo.failed, call :: mo.calls⟩
    else ⟨[], ["Team: " ++ dt.name], [], []⟩

/-- The `configure-org` teams phase. -/
def configureTeams (oracle : Prompt → Bool)
    (remoteFails : RemoteCall → Option String)
    (createdSlug : String → List Char) (currentTeams : List RemoteTeam)
    (desiredTeams : List TeamConfig) : ApplyOutcome :=
  concatOutcomes (desiredTeams.map
    (stepTeam oracle remoteFails createdSlug currentTeams))

end ConfigureOrg

namespace RestoreOrg

open SettingsDiff ConfigureOrg

/-- The snapshot written by `configure-org` (CLI entry, lines 323-329) and
read back by `restore-org`: per-category captured state.  Secrets are captured
by name only. -/
structure BackupSettings where
  actionVariables : SettingsMap
  actionSecrets : List String
  memberPrivileges : SettingsMap
  branchRulesets : List Ruleset
  teams : List TeamConfig

/-- One iteration of the `restore-org` action-variables loop (CLI entry,
lines 724-743): identical to the `configure-org` loop except that there is no
defensive equality re-check before prompting. -/
def restoreVariables (oracle : Prompt → Bool)
    (remoteFails : RemoteCall → Option String)
    (currentVariables backupVariables : SettingsMap) : ApplyOutcome :=
  concatOutcomes ((compare currentVariables backupVariables).map
    (stepVariable oracle remoteFails false))

/-- One iteration of the `restore-org` secrets loop (CLI entry, lines
749-778): for each secret *name* captured in the snapshot, look its plaintext
up in the currently loaded `action-secrets.env`; a (truthy) hit is confirmed
and re-set via `setActionSecret`; a miss is reported skipped
(`(not in env file)`), never as an error.  If the env file itself cannot be
loaded the phase only prints a warning and records nothing. -/
def restoreSecrets (oracle : Prompt → Bool)
    (remoteFails : RemoteCall → Option String)
    (envSecrets : Except String (List (String × String)))
    (backupSecretNames : List String) : ApplyOutcome :=
  match envSecrets with
  | .error _ => ApplyOutcome.empty
  | .ok env =>
    concatOutcomes (backupSecretNames.map fun name =>
      match env.find? (fun p => p.1 == name) with
      | some p =>
        if p.2 != "" then
          if oracle (.restoreSecret name) then
            let call := RemoteCall.setActionSecret name (.str p.2)
            match remoteFails call with
            | none => ⟨["Secret: " ++ name], [], [], [call]⟩
            | some msg =>
              ⟨[], [],
               ["Secret: " ++ name ++ " - Failed to set secret " ++ name ++ ": " ++ msg],
               [call]⟩
          else ⟨[], ["Secret: " ++ name], [], []⟩
        else ⟨[], ["Secret: " ++ name ++ " (not in env file)"], [], []⟩
      | none => ⟨[], ["Secret: " ++ name ++ " (not in env file)"], [], []⟩)

/-- The `restore-org` member-privileges loop (CLI entry, lines 784-803),
again without the defensive precheck. -/
def restorePrivileges (oracle : Prompt → Bool)
    (remoteFails : RemoteCall → Option String)
    (currentPrivileges backupPrivileges : SettingsMap) : ApplyOutcome :=
  concatOutcomes ((compare currentPrivileges backupPrivileges).map
    (stepPrivilege oracle remoteFails false))

/-- The whole `restore-org` command action (CLI entry, lines 684-837) after
the snapshot has been read: restore variables, then secrets, then member
privileges.  `currentSecretNames` and `currentRulesets` are fetched by the
command (lines 708-710) but never used afterwards; no other category of the
snapshot is processed. -/
def restoreOrg (oracle : Prompt → Bool)
    (remoteFails : RemoteCall → Option String) (backup : BackupSettings)
    (currentVariables currentPrivileges : SettingsMap)
    (_currentSecretNames : List String)
    (_currentRulesets : List RemoteRuleset)
    (envSecrets : Except String (List (String × String))) : ApplyOutcome :=
  (restoreVariables oracle remoteFails currentVariables backup.actionVariables).append
    ((restoreSecrets oracle remoteFails envSecrets backup.actionSecrets).append
      (restorePrivileges oracle remoteFails currentPrivileges backup.memberPrivileges))

end RestoreOrg

section BasicLemmas

open SettingsDiff

/-- `strictEq v undefined` holds exactly for the `undefined` marker. -/
theorem strictEq_undef_iff (v : JsVal) : strictEq v .undefined = true ↔ v = .undefined := by
  cases v <;> simp [strictEq]

/-- A value other than `undefined` is never `isEqual` to `undefined`: either it
is `null` (nullish, and not strictly equal) or it is defined (and `undefined`
is nullish). -/
theorem isEqual_undef_right {v : JsVal} (h : v ≠ .undefined) :
    isEqual v .undefined = false := by
  cases v <;> simp_all [isEqual, strictEq, isNullish]

end BasicLemmas

section ClaimC7C8C10C6

open SettingsDiff

/-- C7 (corrected).  Under `SettingsDiff.isEqual`, `null` and `undefined` are
NOT equal to each other: they are not strictly equal, and the nullish check
then returns `false`. -/
theorem isEqual_null_undef_counterexample :
    isEqual .null .undefined = false ∧ isEqual .undefined .null = false := by decide

/-- C7 (amended).  `null` equals `null` and `undefined` equals `undefined`,
but `null` and `undefined` are unequal to each other, and each of them is
unequal to every other (defined) value. -/
theorem isEqual_nullish_spec (v : JsVal) (h1 : v ≠ .null) (h2 : v ≠ .undefined) :
    isEqual .null .null = true ∧ isEqual .undefined .undefined = true ∧
    isEqual .null .undefined = false ∧ isEqual .undefined .null = false ∧
    isEqual .null v = false ∧ isEqual v .null = false ∧
    isEqual .undefined v = false ∧ isEqual v .undefined = false := by
  refine ⟨by decide, by decide, by decide, by decide, ?_, ?_, ?_, ?_⟩ <;>
    cases v <;> simp_all [isEqual, strictEq, isNullish]

/-- Witness for `isEqual_nullish_spec` at the defined value `42`. -/
theorem isEqual_nullish_spec_witness :
    (JsVal.num 42 ≠ .null) ∧ (JsVal.num 42 ≠ .undefined) ∧
    (isEqual .null .null = true ∧ isEqual .undefined .undefined = true ∧
     isEqual .null .undefined = false ∧ isEqual .undefined .null = false ∧
     isEqual .null (.num 42) = false ∧ isEqual (.num 42) .null = false ∧
     isEqual .undefined (.num 42) = false ∧ isEqual (.num 42) .undefined = false) :=
  ⟨by simp, by simp, isEqual_nullish_spec (.num 42) (by simp) (by simp)⟩

/-- C8 (corrected).  A sequence and a mapping are NOT always unequal: the
array `[1]` and the object with key `"0"` mapped to `1` are `isEqual`, since
both have `typeof` `'object'` and matching keys/values. -/
theorem isEqual_array_object_counterexample :
    isEqual (.arr [.num 1]) (.obj [("0", .num 1)]) = true := by decide

/-- C8 (amended).  Two values of differing `typeof` kinds (scalar vs
composite, or two different scalar kinds) are always unequal regardless of
content; a sequence and a mapping, however, share `typeof` `'object'` and can
compare equal. -/
theorem isEqual_typeof_mismatch (a b : JsVal) (h : jsTypeof a ≠ jsTypeof b) :
    isEqual a b = false := by
  cases a <;> cases b <;> simp_all [isEqual, strictEq, isNullish, jsTypeof]

/-- Witness for `isEqual_typeof_mismatch`: a number against a string. -/
theorem isEqual_typeof_mismatch_witness :
    jsTypeof (.num 1) ≠ jsTypeof (.str "1") ∧
    isEqual (.num 1) (.str "1") = false :=
  ⟨by decide, isEqual_typeof_mismatch (.num 1) (.str "1") (by decide)⟩

/-- C10 (confirmed).  `PromptManager.confirm` resolves to `false` exactly when
the trimmed, lowercased answer is `'n'` or `'no'`; anything else — including
the empty answer — resolves to `true`. -/
theorem confirm_false_iff (answer : String) :
    (PromptManager.confirm answer = false ↔
      PromptManager.jsToLower (PromptManager.jsTrim answer.toList) = "n".toList ∨
      PromptManager.jsToLower (PromptManager.jsTrim answer.toList) = "no".toList) ∧
    PromptManager.confirm "" = true := by
  constructor
  · simp only [PromptManager.confirm]
    constructor
    · intro h
      rcases Bool.and_eq_false_iff.mp h with h1 | h1 <;>
        simp only [bne_eq_false_iff_eq] at h1 <;> [exact Or.inl h1; exact Or.inr h1]
    · rintro (h | h) <;> rw [h] <;> decide
  · decide

/-- C6 (code bug).  Evaluating the embedded `createBackup` filename derivation
at two capture instants inside the same wall-clock second: the milliseconds
survive into the filename (the `.split('.')[0]` intended to drop them runs
after every `'.'` has already been replaced by `'-'`), so the two filenames
differ — there is no one-second granularity and no same-second overwrite. -/
theorem backupFilename_millisecond_granularity :
    BackupManager.sameSecond ⟨2025, 1, 1, 0, 0, 0, 123⟩ ⟨2025, 1, 1, 0, 0, 0, 987⟩ = true ∧
    BackupManager.backupFilename (BackupManager.toISOString ⟨2025, 1, 1, 0, 0, 0, 123⟩) =
      "backup-2025-01-01_00-00-00-123Z.json".toList ∧
    BackupManager.backupFilename (BackupManager.toISOString ⟨2025, 1, 1, 0, 0, 0, 987⟩) =
      "backup-2025-01-01_00-00-00-987Z.json".toList ∧
    BackupManager.backupFilename (BackupManager.toISOString ⟨2025, 1, 1, 0, 0, 0, 123⟩) ≠
      BackupManager.backupFilename (BackupManager.toISOString ⟨2025, 1, 1, 0, 0, 0, 987⟩) := by
  refine ⟨by decide, by decide, by decide, by decide⟩

/-- C1 (corrected).  `compare` can emit a `Change` for a key whose two values
are deeply equal under `isEqual`: a key stored with the `undefined` marker in
`current` and absent from `desired` yields a `remove` change although both
sides are `undefined` (which `isEqual` deems equal).  The same input also
shows the `add`/`update` classification is decided by
`current[key] === undefined`, not by key presence. -/
theorem compare_undef_counterexample :
    SettingsDiff.compare [("a", .undefined)] [] =
      [{ key := "a", type := .remove, currentValue := .undefined, newValue := .undefined }] ∧
    isEqual .undefined .undefined = true :=
  ⟨rfl, by decide⟩

end ClaimC7C8C10C6

section ClaimC1

open SettingsDiff

/-- `hasKey` is key membership. -/
theorem hasKey_iff_mem (m : SettingsMap) (k : String) :
    hasKey m k = true ↔ k ∈ m.map Prod.fst := by
  simp only [hasKey, Option.isSome_iff_exists, List.mem_map]
  constructor
  · rintro ⟨p, hp⟩
    have hpk := List.find?_some hp
    exact ⟨p, List.mem_of_find?_eq_some hp, beq_iff_eq.mp hpk⟩
  · rintro ⟨p, hpm, hpk⟩
    have hs : (m.find? (fun q => q.1 == k)).isSome = true := by
      rw [List.find?_isSome]
      exact ⟨p, hpm, by simp [hpk]⟩
    exact Option.isSome_iff_exists.mp hs

/-- With no stored `undefined` value, `current[key] === undefined` is exactly
"key absent". -/
theorem strictEq_getVal_undefined (m : SettingsMap) (k : String)
    (hm : ∀ p ∈ m, p.2 ≠ JsVal.undefined) :
    strictEq (getVal m k) .undefined = !(hasKey m k) := by
  unfold getVal hasKey
  cases hf : m.find? (fun q => q.1 == k) with
  | none => simp [strictEq]
  | some p =>
    have hne := hm p (List.mem_of_find?_eq_some hf)
    cases hp2 : p.2 <;> simp_all [strictEq]

/-- A `filterMap` whose emitted changes keep the source key contributes
nothing at a key not among the input's keys. -/
theorem filter_key_filterMap_not_mem (f : String × JsVal → Option Change)
    (hf : ∀ p c, f p = some c → c.key = p.1) (l : SettingsMap) (k : String)
    (hk : k ∉ l.map Prod.fst) :
    ((l.filterMap f).filter (fun c => c.key == k)) = [] := by
  induction l with
  | nil => rfl
  | cons q t ih =>
    simp only [List.map_cons, List.mem_cons, not_or] at hk
    obtain ⟨hk1, hk2⟩ := hk
    rw [List.filterMap_cons]
    cases hfq : f q with
    | none => exact ih hk2
    | some c =>
      rw [List.filter_cons]
      have hck : (c.key == k) = false := by
        rw [hf q c hfq]
        exact beq_eq_false_iff_ne.mpr (fun h => hk1 h.symm)
      simp only [hck, Bool.false_eq_true, if_false]
      exact ih hk2

/-- At a key found in the input (with duplicate-free keys), such a
`filterMap` contributes exactly what it emits for the found entry. -/
theorem filter_key_filterMap_found (f : String × JsVal → Option Change)
    (hf : ∀ p c, f p = some c → c.key = p.1) (l : SettingsMap) (k : String)
    (hnd : (l.map Prod.fst).Nodup) (p : String × JsVal)
    (hp : l.find? (fun q => q.1 == k) = some p) :
    ((l.filterMap f).filter (fun c => c.key == k)) = (f p).toList := by
  induction l with
  | nil => simp at hp
  | cons q t ih =>
    simp only [List.map_cons, List.nodup_cons] at hnd
    obtain ⟨hq1, hnd2⟩ := hnd
    by_cases hqk : (q.1 == k) = true
    · have hqp : q = p := by
        have : some q = some p := by
          simpa [List.find?_cons, hqk] using hp
        injection this
      subst hqp
      have hkq : q.1 = k := beq_iff_eq.mp hqk
      have hkt : k ∉ t.map Prod.fst := hkq ▸ hq1
      rw [List.filterMap_cons]
      cases hfq : f q with
      | none =>
        simpa using filter_key_filterMap_not_mem f hf t k hkt
      | some c =>
        rw [List.filter_cons]
        have hck : (c.key == k) = true := by
          rw [hf q c hfq, hkq]
          exact beq_self_eq_true k
        simp only [hck, if_true, Option.toList]
        rw [filter_key_filterMap_not_mem f hf t k hkt]
    · have hp2 : t.find? (fun q => q.1 == k) = some p := by
        simpa [List.find?_cons, Bool.eq_false_iff.mpr hqk] using hp
      rw [List.filterMap_cons]
      cases hfq : f q with
      | none => exact ih hnd2 hp2
      | some c =>
        rw [List.filter_cons]
        have hck : (c.key == k) = false := by
          rw [hf q c hfq]
          simpa using hqk
        simp only [hck, Bool.false_eq_true, if_false]
        exact ih hnd2 hp2

/-- The `remove` half of `compare` contributes nothing at a key present in
`desired`. -/
theorem filter_key_removes_hasKey (current desired : SettingsMap) (k : String)
    (hk : hasKey desired k = true) :
    ((current.filterMap fun p =>
        if hasKey desired p.1 then none
        else some (⟨p.1, ChangeType.remove, p.2, JsVal.undefined⟩ : Change)).filter
      (fun c => c.key == k)) = [] := by
  induction current with
  | nil => rfl
  | cons q t ih =>
    rw [List.filterMap_cons]
    by_cases hq : hasKey desired q.1
    · rw [if_pos hq]
      exact ih
    · rw [if_neg hq, List.filter_cons]
      have hqk : (q.1 == k) = false :=
        beq_eq_false_iff_ne.mpr (fun h => hq (h ▸ hk))
      simp only [hqk, Bool.false_eq_true, if_false]
      exact ih

/-- C1 (amended).  For maps with duplicate-free keys whose stored values
never use the `undefined` missing-value marker (as is the case for all
JSON-derived inputs), `compare` emits exactly one `Change` per key whose
values are not deeply equal under `isEqual` (reading an absent key as
`undefined`), carrying those two values, classified `add` when the key is
absent in `current`, `remove` when absent in `desired`, `update` otherwise;
it emits no `Change` for a key whose values are deeply equal — hence none for
a key outside the union of the two key sets. -/
theorem compare_spec (current desired : SettingsMap)
    (hcn : (current.map Prod.fst).Nodup) (hdn : (desired.map Prod.fst).Nodup)
    (hcu : ∀ p ∈ current, p.2 ≠ JsVal.undefined) (k : String) :
    ((compare current desired).filter (fun c => c.key == k)) =
      (if isEqual (getVal current k) (getVal desired k) then []
       else [{ key := k
               type := if hasKey current k then
                         (if hasKey desired k then ChangeType.update else .remove)
                       else .add
               currentValue := getVal current k
               newValue := getVal desired k }]) := by
  have hfA : ∀ (p : String × JsVal) (c : Change),
      (let currentValue := getVal current p.1
       if isEqual currentValue p.2 then none
       else some { key := p.1
                   type := if strictEq currentValue .undefined then ChangeType.add
                           else .update
                   currentValue := currentValue
                   newValue := p.2 }) = some c → c.key = p.1 := by
    intro p c h
    dsimp only [] at h
    split at h
    · cases h
    · cases h; rfl
  have hfB : ∀ (p : String × JsVal) (c : Change),
      (if hasKey desired p.1 then none
       else some (⟨p.1, ChangeType.remove, p.2, JsVal.undefined⟩ : Change)) = some c →
      c.key = p.1 := by
    intro p c h
    split at h
    · cases h
    · cases h; rfl
  unfold SettingsDiff.compare
  rw [List.filter_append]
  by_cases hd : hasKey desired k = true
  · obtain ⟨p, hp⟩ := Option.isSome_iff_exists.mp hd
    have hpk := List.find?_some hp
    have hk1 : p.1 = k := beq_iff_eq.mp hpk
    have hgv : getVal desired k = p.2 := by unfold getVal; rw [hp]
    rw [filter_key_filterMap_found _ hfA desired k hdn p hp,
        filter_key_removes_hasKey current desired k hd, List.append_nil]
    dsimp only []
    rw [hk1, hgv]
    split
    · rfl
    · simp only [Option.toList, List.cons.injEq, and_true]
      congr 1
      rw [strictEq_getVal_undefined current k hcu]
      cases hc : hasKey current k <;> simp
  · have hdb : hasKey desired k = false := Bool.not_eq_true _ ▸ Bool.eq_false_iff.mpr hd
    have hdf : desired.find? (fun q => q.1 == k) = none := by
      unfold hasKey at hdb
      exact Option.not_isSome_iff_eq_none.mp (by simp [hdb])
    have hgv : getVal desired k = .undefined := by unfold getVal; rw [hdf]
    have hknotd : k ∉ desired.map Prod.fst := fun hmem =>
      hd ((hasKey_iff_mem desired k).mpr hmem)
    rw [filter_key_filterMap_not_mem _ hfA desired k hknotd, List.nil_append]
    by_cases hc : hasKey current k = true
    · obtain ⟨p, hp⟩ := Option.isSome_iff_exists.mp hc
      have hpk := List.find?_some hp
      have hk1 : p.1 = k := beq_iff_eq.mp hpk
      have hgvc : getVal current k = p.2 := by unfold getVal; rw [hp]
      rw [filter_key_filterMap_found _ hfB current k hcn p hp]
      have hdp : hasKey desired p.1 = false := by rw [hk1]; exact hdb
      have hne : p.2 ≠ JsVal.undefined := hcu p (List.mem_of_find?_eq_some hp)
      rw [hgv, hgvc, isEqual_undef_right hne]
      simp only [hdp, Bool.false_eq_true, if_false, Option.toList, hc, hdb,
        if_true, hk1]
    · have hcb : hasKey current k = false := Bool.eq_false_iff.mpr hc
      have hcf : current.find? (fun q => q.1 == k) = none := by
        unfold hasKey at hcb
        exact Option.not_isSome_iff_eq_none.mp (by simp [hcb])
      have hgvc : getVal current k = .undefined := by unfold getVal; rw [hcf]
      have hknotc : k ∉ current.map Prod.fst := fun hmem =>
        hc ((hasKey_iff_mem current k).mpr hmem)
      rw [filter_key_filterMap_not_mem _ hfB current k hknotc]
      rw [hgv, hgvc]
      simp [isEqual, strictEq]

/-- Witness for `compare_spec`: current `{x: 1}`, desired `{x: 2}` at key
`x` yields exactly one `update` change. -/
theorem compare_spec_witness :
    ((([("x", JsVal.num 1)] : SettingsMap).map Prod.fst).Nodup) ∧
    ((([("x", JsVal.num 2)] : SettingsMap).map Prod.fst).Nodup) ∧
    (∀ p ∈ ([("x", JsVal.num 1)] : SettingsMap), p.2 ≠ JsVal.undefined) ∧
    ((SettingsDiff.compare [("x", JsVal.num 1)] [("x", JsVal.num 2)]).filter
        (fun c => c.key == "x") =
      (if isEqual (getVal [("x", JsVal.num 1)] "x")
          (getVal [("x", JsVal.num 2)] "x") then []
       else [{ key := "x"
               type := if hasKey [("x", JsVal.num 1)] "x" then
                         (if hasKey [("x", JsVal.num 2)] "x" then
                            ChangeType.update else .remove)
                       else .add
               currentValue := getVal [("x", JsVal.num 1)] "x"
               newValue := getVal [("x", JsVal.num 2)] "x" }])) :=
  ⟨by simp, by simp, by simp, compare_spec [("x", JsVal.num 1)]
    [("x", JsVal.num 2)] (by simp) (by simp) (by simp) "x"⟩

end ClaimC1

section OutcomeLemmas

/-- `ApplyOutcome.append` is associative. -/
theorem ApplyOutcome.append_assoc (x y z : ApplyOutcome) :
    (x.append y).append z = x.append (y.append z) := by
  simp [ApplyOutcome.append, List.append_assoc]

/-- `empty` is a left identity for `append`. -/
theorem ApplyOutcome.empty_append (x : ApplyOutcome) :
    ApplyOutcome.empty.append x = x := by
  simp [ApplyOutcome.append, ApplyOutcome.empty]

/-- `empty` is a right identity for `append`. -/
theorem ApplyOutcome.append_empty (x : ApplyOutcome) :
    x.append ApplyOutcome.empty = x := by
  simp [ApplyOutcome.append, ApplyOutcome.empty]

/-- Concatenating the outcomes of two loop halves. -/
theorem concatOutcomes_append (xs ys : List ApplyOutcome) :
    concatOutcomes (xs ++ ys) =
      (concatOutcomes xs).append (concatOutcomes ys) := by
  induction xs with
  | nil => simp [concatOutcomes, ApplyOutcome.empty_append]
  | cons x t ih =>
    simp only [List.cons_append, concatOutcomes, List.foldr_cons] at *
    rw [ih, ApplyOutcome.append_assoc]

/-- Concatenating a single iteration. -/
theorem concatOutcomes_cons (x : ApplyOutcome) (xs : List ApplyOutcome) :
    concatOutcomes (x :: xs) = x.append (concatOutcomes xs) := rfl

/-- Membership in the `successful` list of a loop outcome comes from one
iteration. -/
theorem mem_concat_successful {a : String} {l : List ApplyOutcome}
    (o : ApplyOutcome) (ho : o ∈ l) (ha : a ∈ o.successful) :
    a ∈ (concatOutcomes l).successful := by
  induction l with
  | nil => cases ho
  | cons x t ih =>
    rw [concatOutcomes_cons]
    rcases List.mem_cons.mp ho with rfl | hot
    · exact List.mem_append.mpr (Or.inl ha)
    · exact List.mem_append.mpr (Or.inr (ih hot))

/-- Membership in the `failed` list of a loop outcome comes from one
iteration. -/
theorem mem_concat_failed {a : String} {l : List ApplyOutcome}
    (o : ApplyOutcome) (ho : o ∈ l) (ha : a ∈ o.failed) :
    a ∈ (concatOutcomes l).failed := by
  induction l with
  | nil => cases ho
  | cons x t ih =>
    rw [concatOutcomes_cons]
    rcases List.mem_cons.mp ho with rfl | hot
    · exact List.mem_append.mpr (Or.inl ha)
    · exact List.mem_append.mpr (Or.inr (ih hot))

/-- Membership in the `skipped` list of a loop outcome comes from one
iteration. -/
theorem mem_concat_skipped {a : String} {l : List ApplyOutcome}
    (o : ApplyOutcome) (ho : o ∈ l) (ha : a ∈ o.skipped) :
    a ∈ (concatOutcomes l).skipped := by
  induction l with
  | nil => cases ho
  | cons x t ih =>
    rw [concatOutcomes_cons]
    rcases List.mem_cons.mp ho with rfl | hot
    · exact List.mem_append.mpr (Or.inl ha)
    · exact List.mem_append.mpr (Or.inr (ih hot))

/-- Conversely, every call in a loop outcome comes from some iteration. -/
theorem mem_calls_concat {c : RemoteCall} {l : List ApplyOutcome}
    (hc : c ∈ (concatOutcomes l).calls) : ∃ o ∈ l, c ∈ o.calls := by
  induction l with
  | nil => cases hc
  | cons x t ih =>
    rw [concatOutcomes_cons] at hc
    rcases List.mem_append.mp hc with h | h
    · exact ⟨x, List.mem_cons_self x t, h⟩
    · obtain ⟨o, ho, hco⟩ := ih h
      exact ⟨o, List.mem_cons_of_mem x ho, hco⟩

/-- A `List.all` predicate over the calls of a loop outcome follows from the
predicate holding for each iteration's calls. -/
theorem calls_all_concat (p : RemoteCall → Bool) (l : List ApplyOutcome)
    (h : ∀ o ∈ l, o.calls.all p = true) :
    (concatOutcomes l).calls.all p = true := by
  induction l with
  | nil => rfl
  | cons x t ih =>
    rw [concatOutcomes_cons]
    simp only [ApplyOutcome.append, List.all_append]
    rw [Bool.and_eq_true]
    exact ⟨h x (List.mem_cons_self x t), ih (fun o ho => h o (List.mem_cons_of_mem x ho))⟩

end OutcomeLemmas

section ClaimC3

open OrganizationService ConfigureOrg

/-- The error message produced when resolving a `Team` bypass actor whose
name lookup fails: `resolveBypassActors` wraps the `getTeamId` 404 error and
carries the symbolic team name. -/
def resolveTeamErr (t : String) : String :=
  "Failed to resolve team \"" ++ t ++ "\": " ++
    ("Failed to get team ID for \"" ++ t ++ "\": Not Found")

/-- If a bypass-actor list contains a `Team` reference whose lookup fails,
resolution returns an error built from the (first) unresolvable symbolic team
name, resolving nothing. -/
theorem resolveBypassActors_error (lookup : String → Option Nat)
    (bas : List BypassActor)
    (hfail : ∃ a ∈ bas, a.actor_type = "Team" ∧
      ∃ t, a.team = some t ∧ t ≠ "" ∧ lookup t = none) :
    ∃ u, (∃ a ∈ bas, a.actor_type = "Team" ∧ a.team = some u ∧ u ≠ "" ∧
        lookup u = none) ∧
      resolveBypassActors lookup bas = .error (resolveTeamErr u) := by
  induction bas with
  | nil => simp at hfail
  | cons a rest ih =>
    obtain ⟨w, hw, hwt, t0, hwteam, hwne, hwlk⟩ := hfail
    unfold resolveBypassActors
    cases ht : a.team with
    | none =>
      dsimp only
      have hwrest : w ∈ rest := by
        rcases List.mem_cons.mp hw with rfl | h
        · rw [ht] at hwteam; cases hwteam
        · exact h
      obtain ⟨u, hu, herr⟩ := ih ⟨w, hwrest, hwt, t0, hwteam, hwne, hwlk⟩
      obtain ⟨a', ha', hrest⟩ := hu
      refine ⟨u, ⟨a', List.mem_cons_of_mem a ha', hrest⟩, ?_⟩
      rw [herr]
      rfl
    | some t =>
      dsimp only
      by_cases hcond : (a.actor_type == "Team" && t != "") = true
      · rw [if_pos hcond]
        cases hl : lookup t with
        | none =>
          rw [Bool.and_eq_true] at hcond
          refine ⟨t, ⟨a, List.mem_cons_self a rest,
            beq_iff_eq.mp hcond.1, ht, by simpa using hcond.2, hl⟩, ?_⟩
          unfold getTeamId
          rw [hl]
          rfl
        | some id =>
          have hwrest : w ∈ rest := by
            rcases List.mem_cons.mp hw with rfl | h
            · rw [ht] at hwteam
              injection hwteam with h0
              rw [h0] at hl
              rw [hwlk] at hl
              cases hl
            · exact h
          obtain ⟨u, hu, herr⟩ := ih ⟨w, hwrest, hwt, t0, hwteam, hwne, hwlk⟩
          obtain ⟨a', ha', hrest⟩ := hu
          refine ⟨u, ⟨a', List.mem_cons_of_mem a ha', hrest⟩, ?_⟩
          unfold getTeamId
          rw [hl, herr]
          rfl
      · rw [if_neg hcond]
        have hwrest : w ∈ rest := by
          rcases List.mem_cons.mp hw with rfl | h
          · exfalso
            rw [ht] at hwteam
            injection hwteam with h0
            subst h0
            apply hcond
            rw [Bool.and_eq_true]
            exact ⟨beq_iff_eq.mpr hwt, bne_iff_ne.mpr hwne⟩
          · exact h
        obtain ⟨u, hu, herr⟩ := ih ⟨w, hwrest, hwt, t0, hwteam, hwne, hwlk⟩
        obtain ⟨a', ha', hrest⟩ := hu
        refine ⟨u, ⟨a', List.mem_cons_of_mem a ha', hrest⟩, ?_⟩
        rw [herr]
        rfl

/-- C3 (confirmed).  A ruleset whose bypass-actor list contains a `Team`
reference with a failing name lookup: resolution errors out carrying an
unresolvable symbolic team name, the ruleset's apply step records exactly one
`failed` entry (wrapping that error) and issues NO remote
create-ruleset/update-ruleset call, and the surrounding loop still processes
the rulesets before and after it. -/
theorem ruleset_unresolvable_team_isolated (oracle : Prompt → Bool)
    (remoteFails : RemoteCall → Option String) (lookup : String → Option Nat)
    (cur : List RemoteRuleset) (pre post : List Ruleset) (rs : Ruleset)
    (bas : List BypassActor) (hba : rs.bypass_actors = some bas)
    (hfail : ∃ a ∈ bas, a.actor_type = "Team" ∧
      ∃ t, a.team = some t ∧ t ≠ "" ∧ lookup t = none)
    (hcu : oracle (.updateRuleset rs.name) = true)
    (hcc : oracle (.createRuleset rs.name) = true) :
    ∃ u, (∃ a ∈ bas, a.actor_type = "Team" ∧ a.team = some u ∧ u ≠ "" ∧
        lookup u = none) ∧
      resolveBypassActors lookup bas = .error (resolveTeamErr u) ∧
      stepRuleset oracle remoteFails lookup cur rs =
        ⟨[], [],
         ["Ruleset: " ++ rs.name ++ " - " ++
          ((if (cur.find? (fun r => r.name == rs.name)).isSome then
              "Failed to update branch ruleset: "
            else "Failed to create branch ruleset: ") ++ resolveTeamErr u)],
         []⟩ ∧
      configureRulesets oracle remoteFails lookup cur (pre ++ rs :: post) =
        (configureRulesets oracle remoteFails lookup cur pre).append
          ((stepRuleset oracle remoteFails lookup cur rs).append
            (configureRulesets oracle remoteFails lookup cur post)) := by
  obtain ⟨u, hu, herr⟩ := resolveBypassActors_error lookup bas hfail
  refine ⟨u, hu, herr, ?_, ?_⟩
  · unfold stepRuleset
    cases hfind : cur.find? (fun r => r.name == rs.name) with
    | some existing =>
      rw [hcu]
      unfold tryUpdateBranchRuleset
      rw [hba]
      dsimp only
      rw [herr]
      simp
    | none =>
      rw [hcc]
      unfold tryCreateBranchRuleset
      rw [hba]
      dsimp only
      rw [herr]
      simp
  · unfold configureRulesets
    rw [List.map_append, List.map_cons, concatOutcomes_append, concatOutcomes_cons]

/-- Witness for `ruleset_unresolvable_team_isolated`: one declared ruleset
whose only bypass actor references the nonexistent team `ghost`, followed by
a second ruleset. -/
theorem ruleset_unresolvable_team_isolated_witness :
    ((⟨"R1", some [⟨"Team", some "ghost", none, "always"⟩]⟩ : Ruleset).bypass_actors =
      some [⟨"Team", some "ghost", none, "always"⟩]) ∧
    (∃ a ∈ [(⟨"Team", some "ghost", none, "always"⟩ : BypassActor)],
      a.actor_type = "Team" ∧ ∃ t, a.team = some t ∧ t ≠ "" ∧
        (fun (_ : String) => (none : Option Nat)) t = none) ∧
    ((fun _ => true) (Prompt.updateRuleset "R1") = true) ∧
    ((fun _ => true) (Prompt.createRuleset "R1") = true) ∧
    (∃ u, (∃ a ∈ [(⟨"Team", some "ghost", none, "always"⟩ : BypassActor)],
        a.actor_type = "Team" ∧ a.team = some u ∧ u ≠ "" ∧
          (fun (_ : String) => (none : Option Nat)) u = none) ∧
      resolveBypassActors (fun _ => none) [⟨"Team", some "ghost", none, "always"⟩] =
        .error (resolveTeamErr u) ∧
      stepRuleset (fun _ => true) (fun _ => none) (fun _ => none) []
          ⟨"R1", some [⟨"Team", some "ghost", none, "always"⟩]⟩ =
        ⟨[], [],
         ["Ruleset: " ++ "R1" ++ " - " ++
          ((if (([] : List RemoteRuleset).find?
                (fun r => r.name == ("R1" : String))).isSome then
              "Failed to update branch ruleset: "
            else "Failed to create branch ruleset: ") ++ resolveTeamErr u)],
         []⟩ ∧
      configureRulesets (fun _ => true) (fun _ => none) (fun _ => none) []
          ([] ++ ⟨"R1", some [⟨"Team", some "ghost", none, "always"⟩]⟩ ::
            [⟨"R2", none⟩]) =
        (configureRulesets (fun _ => true) (fun _ => none) (fun _ => none) []
            []).append
          ((stepRuleset (fun _ => true) (fun _ => none) (fun _ => none) []
              ⟨"R1", some [⟨"Team", some "ghost", none, "always"⟩]⟩).append
            (configureRulesets (fun _ => true) (fun _ => none) (fun _ => none) []
              [⟨"R2", none⟩]))) :=
  ⟨rfl, ⟨⟨"Team", some "ghost", none, "always"⟩, by simp, rfl, "ghost", rfl,
      by simp, rfl⟩, rfl, rfl,
    ruleset_unresolvable_team_isolated (fun _ => true) (fun _ => none)
      (fun _ => none) [] [] [⟨"R2", none⟩]
      ⟨"R1", some [⟨"Team", some "ghost", none, "always"⟩]⟩
      [⟨"Team", some "ghost", none, "always"⟩] rfl
      ⟨⟨"Team", some "ghost", none, "always"⟩, by simp, rfl, "ghost", rfl,
        by simp, rfl⟩ rfl rfl⟩

end ClaimC3

section ClaimC4

open SettingsDiff ConfigureOrg

/-- The prompt issued for a secret change (`prompt.confirmChange` with masked
values, CLI entry lines 420-425). -/
def secretPrompt (c : Change) : Prompt :=
  .change ("Secret: " ++ c.key)
    (.str (if c.type == .add then "(not set)" else "***"))
    (.str (if c.type == .remove then "***" else "*** (will be set)"))

/-- C4 (corrected).  A declined secret `remove` change is recorded in
`skipped` as the plain entry `Secret: S` — without any manual-action marker
(the `(removal not automated)` suffix is only attached when the user
confirms); it still never reaches `failed`/`successful` and issues no remote
call. -/
theorem secret_remove_declined_plain_skip :
    configureSecrets (fun _ => false) (fun _ => none) ["S"] [] =
      ⟨[], ["Secret: S"], [], []⟩ ∧
    ("Secret: S".endsWith "(removal not automated)") = false := by
  constructor
  · rfl
  · decide

/-- A secret-loop iteration for a `remove` change only ever produces one
`skipped` entry: annotated when confirmed, plain when declined. -/
theorem stepSecret_remove (oracle : Prompt → Bool)
    (remoteFails : RemoteCall → Option String) (c : Change)
    (ht : c.type = .remove) :
    stepSecret oracle remoteFails c =
      ⟨[],
       [if oracle (secretPrompt c) then
          "Secret: " ++ c.key ++ " (removal not automated)"
        else "Secret: " ++ c.key],
       [], []⟩ := by
  unfold stepSecret secretPrompt
  rw [ht]
  cases h : oracle (.change ("Secret: " ++ c.key)
      (.str (if ChangeType.remove == .add then "(not set)" else "***"))
      (.str (if ChangeType.remove == .remove then "***" else "*** (will be set)"))) <;>
    simp [h]

/-- Every call a secret-loop iteration issues is a `setActionSecret` for that
change's own key. -/
theorem stepSecret_calls (oracle : Prompt → Bool)
    (remoteFails : RemoteCall → Option String) (c : Change) (r : RemoteCall)
    (hr : r ∈ (stepSecret oracle remoteFails c).calls) :
    r = RemoteCall.setActionSecret c.key c.newValue := by
  unfold stepSecret at hr
  repeat' split at hr
  all_goals try simp_all [ApplyOutcome.empty]
  all_goals
    cases hc2 : remoteFails (RemoteCall.setActionSecret c.key c.newValue) <;>
      simp_all

/-- The keys of the changes emitted by a key-preserving `filterMap` form a
sublist of the input's keys. -/
theorem filterMap_key_sublist (f : String × JsVal → Option SettingsDiff.Change)
    (hf : ∀ p c, f p = some c → c.key = p.1) (l : SettingsDiff.SettingsMap) :
    ((l.filterMap f).map SettingsDiff.Change.key).Sublist (l.map Prod.fst) := by
  induction l with
  | nil => simp
  | cons q t ih =>
    rw [List.filterMap_cons]
    cases hfq : f q with
    | none =>
      rw [List.map_cons]
      exact ih.cons q.1
    | some c =>
      rw [List.map_cons, List.map_cons, hf q c hfq]
      exact ih.cons₂ q.1

/-- Keys of `remove` changes are keys with `hasKey desired _ = false`. -/
theorem mem_removes_key (current desired : SettingsDiff.SettingsMap) (k : String)
    (hk : k ∈ ((current.filterMap fun p =>
        if SettingsDiff.hasKey desired p.1 then none
        else some (⟨p.1, SettingsDiff.ChangeType.remove, p.2, JsVal.undefined⟩ :
          SettingsDiff.Change)).map SettingsDiff.Change.key)) :
    SettingsDiff.hasKey desired k = false := by
  induction current with
  | nil => cases hk
  | cons q t ih =>
    rw [List.filterMap_cons] at hk
    by_cases hq : SettingsDiff.hasKey desired q.1 = true
    · rw [if_pos hq] at hk
      exact ih hk
    · rw [if_neg hq] at hk
      rw [List.map_cons] at hk
      rcases List.mem_cons.mp hk with rfl | h
      · exact Bool.eq_false_iff.mpr hq
      · exact ih h

/-- With duplicate-free inputs, the changes emitted by `compare` carry
pairwise distinct keys. -/
theorem compare_keys_nodup (current desired : SettingsDiff.SettingsMap)
    (hcn : (current.map Prod.fst).Nodup) (hdn : (desired.map Prod.fst).Nodup) :
    ((SettingsDiff.compare current desired).map SettingsDiff.Change.key).Nodup := by
  have hfA : ∀ (p : String × JsVal) (c : SettingsDiff.Change),
      (let currentValue := SettingsDiff.getVal current p.1
       if SettingsDiff.isEqual currentValue p.2 then none
       else some { key := p.1
                   type := if strictEq currentValue .undefined then
                             SettingsDiff.ChangeType.add else .update
                   currentValue := currentValue
                   newValue := p.2 }) = some c → c.key = p.1 := by
    intro p c h
    dsimp only [] at h
    split at h
    · cases h
    · cases h; rfl
  have hfB : ∀ (p : String × JsVal) (c : SettingsDiff.Change),
      (if SettingsDiff.hasKey desired p.1 then none
       else some (⟨p.1, SettingsDiff.ChangeType.remove, p.2, JsVal.undefined⟩ :
         SettingsDiff.Change)) = some c → c.key = p.1 := by
    intro p c h
    split at h
    · cases h
    · cases h; rfl
  unfold SettingsDiff.compare
  rw [List.map_append]
  refine List.Nodup.append ((filterMap_key_sublist _ hfA desired).nodup hdn)
    ((filterMap_key_sublist _ hfB current).nodup hcn) ?_
  intro k hkA hkB
  have h1 : k ∈ desired.map Prod.fst :=
    (filterMap_key_sublist _ hfA desired).mem hkA
  have h2 : SettingsDiff.hasKey desired k = false := mem_removes_key current desired k hkB
  have h3 : SettingsDiff.hasKey desired k = true :=
    (hasKey_iff_mem desired k).mpr h1
  rw [h3] at h2
  cases h2

/-- C4 (amended).  A secret-category `remove` change contributes exactly one
entry, in `skipped` — annotated `(removal not automated)` when the user
confirms, plain when the user declines — never an entry in `failed` or
`successful`, and no remote secret-write call for its key is issued anywhere
in the secrets phase. -/
theorem secret_remove_never_applied (oracle : Prompt → Bool)
    (remoteFails : RemoteCall → Option String) (names : List String)
    (desired : SettingsDiff.SettingsMap) (hnn : names.Nodup)
    (hdn : (desired.map Prod.fst).Nodup) (c : SettingsDiff.Change)
    (hc : c ∈ SettingsDiff.compare (names.map (fun n => (n, JsVal.str "***")))
      desired)
    (ht : c.type = .remove) :
    stepSecret oracle remoteFails c =
      ⟨[],
       [if oracle (secretPrompt c) then
          "Secret: " ++ c.key ++ " (removal not automated)"
        else "Secret: " ++ c.key],
       [], []⟩ ∧
    (if oracle (secretPrompt c) then
       "Secret: " ++ c.key ++ " (removal not automated)"
     else "Secret: " ++ c.key) ∈
      (configureSecrets oracle remoteFails names desired).skipped ∧
    ∀ v, RemoteCall.setActionSecret c.key v ∉
      (configureSecrets oracle remoteFails names desired).calls := by
  have hstep := stepSecret_remove oracle remoteFails c ht
  have hmapnodup :
      (((names.map (fun n => (n, JsVal.str "***"))) :
        SettingsDiff.SettingsMap).map Prod.fst).Nodup := by
    rw [List.map_map]
    have hid : (Prod.fst ∘ fun n => ((n, JsVal.str "***") : String × JsVal)) = id := rfl
    rw [hid, List.map_id]
    exact hnn
  refine ⟨hstep, ?_, ?_⟩
  · unfold configureSecrets
    refine mem_concat_skipped (stepSecret oracle remoteFails c) ?_ ?_
    · exact List.mem_map_of_mem _ hc
    · rw [hstep]
      exact List.mem_singleton_self _
  · intro v hv
    unfold configureSecrets at hv
    obtain ⟨o, ho, hvo⟩ := mem_calls_concat hv
    obtain ⟨c2, hc2, rfl⟩ := List.mem_map.mp ho
    have heq := stepSecret_calls oracle remoteFails c2 _ hvo
    have hkey : c.key = c2.key := by
      injection heq with h1 h2
    have hcc : c = c2 :=
      List.inj_on_of_nodup_map
        (compare_keys_nodup _ desired hmapnodup hdn) hc hc2 hkey
    rw [← hcc] at hvo
    rw [hstep] at hvo
    cases hvo

/-- Witness for `secret_remove_never_applied`: remote secret `S`, empty
desired env file, always-confirming user. -/
theorem secret_remove_never_applied_witness :
    (["S"].Nodup) ∧
    ((([] : SettingsDiff.SettingsMap).map Prod.fst).Nodup) ∧
    ((⟨"S", .remove, .str "***", .undefined⟩ : SettingsDiff.Change) ∈
      SettingsDiff.compare (["S"].map (fun n => (n, JsVal.str "***"))) []) ∧
    ((⟨"S", .remove, .str "***", .undefined⟩ : SettingsDiff.Change).type = .remove) ∧
    (stepSecret (fun _ => true) (fun _ => none)
        ⟨"S", .remove, .str "***", .undefined⟩ =
      ⟨[],
       [if (fun _ => true) (secretPrompt ⟨"S", .remove, .str "***", .undefined⟩) then
          "Secret: " ++ "S" ++ " (removal not automated)"
        else "Secret: " ++ "S"],
       [], []⟩ ∧
     (if (fun _ => true) (secretPrompt ⟨"S", .remove, .str "***", .undefined⟩) then
        "Secret: " ++ "S" ++ " (removal not automated)"
      else "Secret: " ++ "S") ∈
       (configureSecrets (fun _ => true) (fun _ => none) ["S"] []).skipped ∧
     ∀ v, RemoteCall.setActionSecret "S" v ∉
       (configureSecrets (fun _ => true) (fun _ => none) ["S"] []).calls) :=
  ⟨by simp, by simp, List.mem_singleton_self _, rfl,
    secret_remove_never_applied (fun _ => true) (fun _ => none) ["S"] []
      (by simp) (by simp) ⟨"S", .remove, .str "***", .undefined⟩
      (List.mem_singleton_self _) rfl⟩

end ClaimC4

section ClaimC5C9

open ConfigureOrg

/-- The member loop distributes over list concatenation. -/
theorem processMembers_append (remoteFails : RemoteCall → Option String)
    (teamName : String) (slug : List Char) (xs ys : List TeamMember) :
    processMembers remoteFails teamName slug (xs ++ ys) =
      (processMembers remoteFails teamName slug xs).append
        (processMembers remoteFails teamName slug ys) := by
  unfold processMembers
  rw [List.map_append, concatOutcomes_append]

/-- The teams loop distributes over list concatenation. -/
theorem configureTeams_append (oracle : Prompt → Bool)
    (remoteFails : RemoteCall → Option String) (createdSlug : String → List Char)
    (currentTeams : List RemoteTeam) (xs ys : List TeamConfig) :
    configureTeams oracle remoteFails createdSlug currentTeams (xs ++ ys) =
      (configureTeams oracle remoteFails createdSlug currentTeams xs).append
        (configureTeams oracle remoteFails createdSlug currentTeams ys) := by
  unfold configureTeams
  rw [List.map_append, concatOutcomes_append]

/-- A failing member upsert contributes exactly one `failed` entry (and its
attempted call); a succeeding one contributes only its call. -/
theorem stepMember_failed (remoteFails : RemoteCall → Option String)
    (teamName : String) (slug : List Char) (m : TeamMember) (msg : String)
    (hf : remoteFails (RemoteCall.addTeamMember (String.mk slug) m.username
      m.role) = some msg) :
    stepMember remoteFails teamName slug m =
      ⟨[], [], ["Team " ++ teamName ++ " - Member " ++ m.username],
       [RemoteCall.addTeamMember (String.mk slug) m.username m.role]⟩ := by
  unfold stepMember
  simp only [hf]

/-- C5 (confirmed).  In the `configure-org` teams loop (update path), a
failure while upserting one declared member is recorded as exactly one entry
in the aggregated `failed` list, the remaining members of that team are still
upserted (their calls appear after the failing one), the team operation
itself still completes (`Team: <name>` is recorded successful), and the teams
before and after it in the declared list are processed unchanged. -/
theorem team_member_failure_isolated (oracle : Prompt → Bool)
    (remoteFails : RemoteCall → Option String) (createdSlug : String → List Char)
    (cur : List RemoteTeam) (pre post : List TeamConfig) (T : TeamConfig)
    (ex : RemoteTeam)
    (hex : cur.find? (fun t => t.slug.toList == slugify T.name) = some ex)
    (hconf : oracle (.updateTeam T.name) = true)
    (hup : remoteFails (RemoteCall.updateTeam ex.slug T.name) = none)
    (mpre mpost : List TeamMember) (m : TeamMember)
    (hm : T.members = mpre ++ m :: mpost) (msg : String)
    (hfail : remoteFails (RemoteCall.addTeamMember (String.mk ex.slug.toList)
      m.username m.role) = some msg) :
    configureTeams oracle remoteFails createdSlug cur (pre ++ T :: post) =
      (configureTeams oracle remoteFails createdSlug cur pre).append
        ((stepTeam oracle remoteFails createdSlug cur T).append
          (configureTeams oracle remoteFails createdSlug cur post)) ∧
    stepTeam oracle remoteFails createdSlug cur T =
      ⟨["Team: " ++ T.name], [],
       (processMembers remoteFails T.name ex.slug.toList mpre).failed ++
         ("Team " ++ T.name ++ " - Member " ++ m.username) ::
           (processMembers remoteFails T.name ex.slug.toList mpost).failed,
       RemoteCall.updateTeam ex.slug T.name ::
         ((processMembers remoteFails T.name ex.slug.toList mpre).calls ++
           RemoteCall.addTeamMember (String.mk ex.slug.toList) m.username m.role ::
             (processMembers remoteFails T.name ex.slug.toList mpost).calls)⟩ := by
  constructor
  · unfold configureTeams
    rw [List.map_append, List.map_cons, concatOutcomes_append, concatOutcomes_cons]
  · unfold stepTeam
    rw [hex]
    try dsimp only
    rw [hconf]
    try dsimp only
    rw [hup]
    try dsimp only
    rw [hm, processMembers_append]
    have hcons : processMembers remoteFails T.name ex.slug.toList (m :: mpost) =
        (stepMember remoteFails T.name ex.slug.toList m).append
          (processMembers remoteFails T.name ex.slug.toList mpost) := rfl
    rw [hcons, stepMember_failed remoteFails T.name ex.slug.toList m msg hfail]
    simp [ApplyOutcome.append]

/-- Witness for `team_member_failure_isolated`: team `Devs` exists remotely
as slug `devs`; of its two declared members the first upsert fails and the
second succeeds; one further team follows. -/
theorem team_member_failure_isolated_witness :
    (([⟨"devs"⟩] : List RemoteTeam).find?
        (fun t => t.slug.toList == slugify "Devs") = some ⟨"devs"⟩) ∧
    (((fun _ => true) (Prompt.updateTeam "Devs") : Bool) = true) ∧
    ((fun c => match c with
        | RemoteCall.addTeamMember _ "alice" _ => some "boom"
        | _ => none) (RemoteCall.updateTeam "devs" "Devs") = none) ∧
    ((⟨"Devs", [⟨"alice", "member"⟩, ⟨"bob", "maintainer"⟩]⟩ : TeamConfig).members =
      [] ++ ⟨"alice", "member"⟩ :: [⟨"bob", "maintainer"⟩]) ∧
    ((fun c => match c with
        | RemoteCall.addTeamMember _ "alice" _ => some "boom"
        | _ => none)
      (RemoteCall.addTeamMember (String.mk "devs".toList) "alice" "member") =
        some "boom") ∧
    (configureTeams (fun _ => true)
        (fun c => match c with
          | RemoteCall.addTeamMember _ "alice" _ => some "boom"
          | _ => none)
        (fun n => slugify n) [⟨"devs"⟩]
        ([] ++ (⟨"Devs", [⟨"alice", "member"⟩, ⟨"bob", "maintainer"⟩]⟩ : TeamConfig) ::
          [⟨"Ops", []⟩]) =
      (configureTeams (fun _ => true)
          (fun c => match c with
            | RemoteCall.addTeamMember _ "alice" _ => some "boom"
            | _ => none)
          (fun n => slugify n) [⟨"devs"⟩] []).append
        ((stepTeam (fun _ => true)
            (fun c => match c with
              | RemoteCall.addTeamMember _ "alice" _ => some "boom"
              | _ => none)
            (fun n => slugify n) [⟨"devs"⟩]
            ⟨"Devs", [⟨"alice", "member"⟩, ⟨"bob", "maintainer"⟩]⟩).append
          (configureTeams (fun _ => true)
            (fun c => match c with
              | RemoteCall.addTeamMember _ "alice" _ => some "boom"
              | _ => none)
            (fun n => slugify n) [⟨"devs"⟩] [⟨"Ops", []⟩])) ∧
     stepTeam (fun _ => true)
        (fun c => match c with
          | RemoteCall.addTeamMember _ "alice" _ => some "boom"
          | _ => none)
        (fun n => slugify n) [⟨"devs"⟩]
        ⟨"Devs", [⟨"alice", "member"⟩, ⟨"bob", "maintainer"⟩]⟩ =
      ⟨["Team: " ++ "Devs"], [],
       (processMembers (fun c => match c with
          | RemoteCall.addTeamMember _ "alice" _ => some "boom"
          | _ => none) "Devs" ("devs" : String).toList []).failed ++
         ("Team " ++ "Devs" ++ " - Member " ++ "alice") ::
           (processMembers (fun c => match c with
              | RemoteCall.addTeamMember _ "alice" _ => some "boom"
              | _ => none) "Devs" ("devs" : String).toList
             [⟨"bob", "maintainer"⟩]).failed,
       RemoteCall.updateTeam "devs" "Devs" ::
         ((processMembers (fun c => match c with
            | RemoteCall.addTeamMember _ "alice" _ => some "boom"
            | _ => none) "Devs" ("devs" : String).toList []).calls ++
           RemoteCall.addTeamMember (String.mk ("devs" : String).toList)
               "alice" "member" ::
             (processMembers (fun c => match c with
                | RemoteCall.addTeamMember _ "alice" _ => some "boom"
                | _ => none) "Devs" ("devs" : String).toList
               [⟨"bob", "maintainer"⟩]).calls)⟩) :=
  ⟨rfl, rfl, rfl, rfl, rfl,
    team_member_failure_isolated (fun _ => true)
      (fun c => match c with
        | RemoteCall.addTeamMember _ "alice" _ => some "boom"
        | _ => none)
      (fun n => slugify n) [⟨"devs"⟩] [] [⟨"Ops", []⟩]
      ⟨"Devs", [⟨"alice", "member"⟩, ⟨"bob", "maintainer"⟩]⟩ ⟨"devs"⟩ rfl rfl
      rfl [] [⟨"bob", "maintainer"⟩] ⟨"alice", "member"⟩ rfl "boom" rfl⟩

end ClaimC5C9

section ClaimC9

open ConfigureOrg

/-- C9 (confirmed).  In the `configure-org` teams loop (create path), a team
whose member upserts partially fail still records `Team: <name>` in the
`successful` list while each failed member upsert contributes a
`Team <name> - Member <username>` entry to the `failed` list — so one team
operation contributes to both lists of the same run. -/
theorem team_partial_failure_both_lists (oracle : Prompt → Bool)
    (remoteFails : RemoteCall → Option String) (createdSlug : String → List Char)
    (cur : List RemoteTeam) (teams : List TeamConfig) (T : TeamConfig)
    (m : TeamMember) (msg : String) (hT : T ∈ teams)
    (hex : cur.find? (fun t => t.slug.toList == slugify T.name) = none)
    (hconf : oracle (.createTeam T.name) = true)
    (hcreate : remoteFails (RemoteCall.createTeam T.name) = none)
    (hm : m ∈ T.members)
    (hfail : remoteFails (RemoteCall.addTeamMember
      (String.mk (createdSlug T.name)) m.username m.role) = some msg) :
    ("Team: " ++ T.name) ∈
      (configureTeams oracle remoteFails createdSlug cur teams).successful ∧
    ("Team " ++ T.name ++ " - Member " ++ m.username) ∈
      (configureTeams oracle remoteFails createdSlug cur teams).failed := by
  have hstep : stepTeam oracle remoteFails createdSlug cur T =
      ⟨["Team: " ++ T.name], [],
       (processMembers remoteFails T.name (createdSlug T.name) T.members).failed,
       RemoteCall.createTeam T.name ::
         (processMembers remoteFails T.name (createdSlug T.name) T.members).calls⟩ := by
    unfold stepTeam
    rw [hex]
    try dsimp only
    rw [hconf]
    try dsimp only
    rw [hcreate]
    rfl
  have hmem : ("Team " ++ T.name ++ " - Member " ++ m.username) ∈
      (processMembers remoteFails T.name (createdSlug T.name) T.members).failed := by
    unfold processMembers
    refine mem_concat_failed
      (stepMember remoteFails T.name (createdSlug T.name) m) ?_ ?_
    · exact List.mem_map_of_mem _ hm
    · rw [stepMember_failed remoteFails T.name (createdSlug T.name) m msg hfail]
      exact List.mem_singleton_self _
  constructor
  · unfold configureTeams
    refine mem_concat_successful (stepTeam oracle remoteFails createdSlug cur T)
      (List.mem_map_of_mem _ hT) ?_
    rw [hstep]
    exact List.mem_singleton_self _
  · unfold configureTeams
    refine mem_concat_failed (stepTeam oracle remoteFails createdSlug cur T)
      (List.mem_map_of_mem _ hT) ?_
    rw [hstep]
    exact hmem

/-- Witness for `team_partial_failure_both_lists`: creating team `Devs` whose
member `alice` fails to upsert while `bob` succeeds. -/
theorem team_partial_failure_both_lists_witness :
    ((⟨"Devs", [⟨"alice", "member"⟩, ⟨"bob", "maintainer"⟩]⟩ : TeamConfig) ∈
      [(⟨"Devs", [⟨"alice", "member"⟩, ⟨"bob", "maintainer"⟩]⟩ : TeamConfig)]) ∧
    (([] : List RemoteTeam).find?
      (fun t => t.slug.toList == slugify "Devs") = none) ∧
    ((⟨"alice", "member"⟩ : TeamMember) ∈
      (⟨"Devs", [⟨"alice", "member"⟩, ⟨"bob", "maintainer"⟩]⟩ : TeamConfig).members) ∧
    (("Team: " ++ "Devs") ∈
      (configureTeams (fun _ => true)
        (fun c => match c with
          | RemoteCall.addTeamMember _ "alice" _ => some "boom"
          | _ => none)
        (fun n => slugify n) []
        [⟨"Devs", [⟨"alice", "member"⟩, ⟨"bob", "maintainer"⟩]⟩]).successful ∧
     ("Team " ++ "Devs" ++ " - Member " ++ "alice") ∈
      (configureTeams (fun _ => true)
        (fun c => match c with
          | RemoteCall.addTeamMember _ "alice" _ => some "boom"
          | _ => none)
        (fun n => slugify n) []
        [⟨"Devs", [⟨"alice", "member"⟩, ⟨"bob", "maintainer"⟩]⟩]).failed) :=
  ⟨List.mem_singleton_self _, rfl, List.mem_cons_self _ _,
    team_partial_failure_both_lists (fun _ => true)
      (fun c => match c with
        | RemoteCall.addTeamMember _ "alice" _ => some "boom"
        | _ => none)
      (fun n => slugify n) []
      [⟨"Devs", [⟨"alice", "member"⟩, ⟨"bob", "maintainer"⟩]⟩]
      ⟨"Devs", [⟨"alice", "member"⟩, ⟨"bob", "maintainer"⟩]⟩
      ⟨"alice", "member"⟩ "boom" (List.mem_singleton_self _) rfl rfl rfl
      (List.mem_cons_self _ _) rfl⟩

end ClaimC9

section ClaimC2

open SettingsDiff ConfigureOrg RestoreOrg

/-- C2 (corrected).  `restore-org` does not run diff-and-apply for every
captured category: a snapshot capturing a branch ruleset `R` and a team
`Devs`, restored against a live organization that has neither, produces no
outcome and no remote call at all — although the same diff-and-apply
machinery, run on the captured rulesets/teams categories, would create both.
Restore only processes variables, secrets (by name, from the env file) and
member privileges. -/
theorem restore_not_all_categories :
    restoreOrg (fun _ => true) (fun _ => none)
        ⟨[], [], [], [⟨"R", none⟩], [⟨"Devs", []⟩]⟩ [] [] [] [] (.ok []) =
      ⟨[], [], [], []⟩ ∧
    configureRulesets (fun _ => true) (fun _ => none) (fun _ => none) []
        [⟨"R", none⟩] =
      ⟨["Ruleset: R"], [], [], [RemoteCall.createOrgRuleset "R" none]⟩ ∧
    configureTeams (fun _ => true) (fun _ => none) (fun n => slugify n) []
        [⟨"Devs", []⟩] =
      ⟨["Team: Devs"], [], [], [RemoteCall.createTeam "Devs"]⟩ :=
  ⟨rfl, rfl, rfl⟩

/-- Only the variables/secrets/privileges write calls, i.e. the calls the
`restore-org` command can issue. -/
def settingsWriteOnly : RemoteCall → Bool
  | .setActionVariable _ _ => true
  | .setActionSecret _ _ => true
  | .updateMemberPrivileges _ _ => true
  | _ => false

/-- Every change emitted by `compare` relates values that are not `isEqual`
(given that `current` stores no explicit `undefined`): the first loop checks
exactly that, and a `remove` change relates a defined value to `undefined`. -/
theorem mem_compare_not_isEqual (current desired : SettingsMap)
    (hcu : ∀ p ∈ current, p.2 ≠ JsVal.undefined) (c : Change)
    (hc : c ∈ compare current desired) :
    isEqual c.currentValue c.newValue = false := by
  unfold SettingsDiff.compare at hc
  rcases List.mem_append.mp hc with h | h
  · obtain ⟨p, hpm, hfp⟩ := List.mem_filterMap.mp h
    dsimp only at hfp
    split at hfp
    · cases hfp
    · cases hfp
      exact Bool.eq_false_iff.mpr (by assumption)
  · obtain ⟨p, hpm, hfp⟩ := List.mem_filterMap.mp h
    split at hfp
    · cases hfp
    · cases hfp
      exact isEqual_undef_right (hcu p hpm)

/-- For a change whose values are not `isEqual`, the defensive precheck of
the `configure-org` loop is a no-op: both loop bodies coincide. -/
theorem stepVariable_precheck_eq (oracle : Prompt → Bool)
    (remoteFails : RemoteCall → Option String) (c : Change)
    (hne : isEqual c.currentValue c.newValue = false) :
    stepVariable oracle remoteFails true c =
      stepVariable oracle remoteFails false c := by
  unfold stepVariable
  rw [hne]
  simp

/-- Same for the member-privileges loop bodies. -/
theorem stepPrivilege_precheck_eq (oracle : Prompt → Bool)
    (remoteFails : RemoteCall → Option String) (c : Change)
    (hne : isEqual c.currentValue c.newValue = false) :
    stepPrivilege oracle remoteFails true c =
      stepPrivilege oracle remoteFails false c := by
  unfold stepPrivilege
  rw [hne]
  simp

/-- The variables loop only issues `setActionVariable` calls. -/
theorem stepVariable_calls_settings (oracle : Prompt → Bool)
    (remoteFails : RemoteCall → Option String) (precheck : Bool) (c : Change) :
    ((stepVariable oracle remoteFails precheck c).calls).all settingsWriteOnly =
      true := by
  unfold stepVariable
  by_cases h1 : (precheck && isEqual c.currentValue c.newValue) = true
  · simp [h1, ApplyOutcome.empty]
  · rw [if_neg h1]
    by_cases h2 : oracle (.change ("Variable: " ++ c.key) c.currentValue
        c.newValue) = true
    · rw [if_pos h2]
      cases hrf : remoteFails (RemoteCall.setActionVariable c.key c.newValue) <;>
        simp [hrf, settingsWriteOnly]
    · rw [if_neg h2]
      simp

/-- The privileges loop only issues `updateMemberPrivileges` calls. -/
theorem stepPrivilege_calls_settings (oracle : Prompt → Bool)
    (remoteFails : RemoteCall → Option String) (precheck : Bool) (c : Change) :
    ((stepPrivilege oracle remoteFails precheck c).calls).all settingsWriteOnly =
      true := by
  unfold stepPrivilege
  by_cases h1 : (precheck && isEqual c.currentValue c.newValue) = true
  · simp [h1, ApplyOutcome.empty]
  · rw [if_neg h1]
    by_cases h2 : oracle (.change ("Privilege: " ++ c.key) c.currentValue
        c.newValue) = true
    · rw [if_pos h2]
      cases hrf : remoteFails (RemoteCall.updateMemberPrivileges c.key c.newValue) <;>
        simp [hrf, settingsWriteOnly]
    · rw [if_neg h2]
      simp

/-- The `restore-org` secrets loop only issues `setActionSecret` calls. -/
theorem restoreSecrets_calls_settings (oracle : Prompt → Bool)
    (remoteFails : RemoteCall → Option String)
    (envSecrets : Except String (List (String × String)))
    (names : List String) :
    ((restoreSecrets oracle remoteFails envSecrets names).calls).all
      settingsWriteOnly = true := by
  unfold restoreSecrets
  cases envSecrets with
  | error e => rfl
  | ok env =>
    refine calls_all_concat _ _ ?_
    intro o ho
    obtain ⟨name, hname, rfl⟩ := List.mem_map.mp ho
    cases hfind : env.find? (fun p => p.1 == name) with
    | none => simp
    | some p =>
      dsimp only
      by_cases h1 : (p.2 != "") = true
      · rw [if_pos h1]
        by_cases h2 : oracle (.restoreSecret name) = true
        · rw [if_pos h2]
          cases hrf : remoteFails (RemoteCall.setActionSecret name (.str p.2)) <;>
            simp [hrf, settingsWriteOnly]
        · rw [if_neg h2]
          simp
      · rw [if_neg h1]
        simp

end ClaimC2

section ClaimC2Main

open SettingsDiff ConfigureOrg RestoreOrg

/-- C2 (amended).  Restore is diff-and-apply with swapped roles only for the
action-variables and member-privileges categories: on those, the
`restore-org` loops coincide with the `configure-org` loops applied with the
snapshot's captured value as desired state and the live value as current
state (the defensive precheck of the latter never fires on `compare`-emitted
changes).  In particular restoring a snapshot holding `{A: 1, B: 2}` against
a live state `{A: 5}` diffs to exactly `update A: 5→1` and `add B: 2`, which
an always-confirming run applies.  The whole restore command only ever issues
variable/secret/privilege write calls — captured rulesets and teams are never
restored. -/
theorem restore_settings_refinement (oracle : Prompt → Bool)
    (remoteFails : RemoteCall → Option String) (backup : BackupSettings)
    (currentVariables currentPrivileges : SettingsMap)
    (currentSecretNames : List String) (currentRulesets : List RemoteRuleset)
    (envSecrets : Except String (List (String × String)))
    (hcv : ∀ p ∈ currentVariables, p.2 ≠ JsVal.undefined)
    (hcp : ∀ p ∈ currentPrivileges, p.2 ≠ JsVal.undefined) :
    (SettingsDiff.compare [("A", .num 5)] [("A", .num 1), ("B", .num 2)] =
      [{ key := "A", type := .update, currentValue := .num 5, newValue := .num 1 },
       { key := "B", type := .add, currentValue := .undefined, newValue := .num 2 }]) ∧
    (restoreVariables (fun _ => true) (fun _ => none) [("A", .num 5)]
        [("A", .num 1), ("B", .num 2)] =
      ⟨["Variable: A", "Variable: B"], [], [],
       [RemoteCall.setActionVariable "A" (.num 1),
        RemoteCall.setActionVariable "B" (.num 2)]⟩) ∧
    (restoreVariables oracle remoteFails currentVariables
        backup.actionVariables =
      configureVariables oracle remoteFails currentVariables
        backup.actionVariables) ∧
    (restorePrivileges oracle remoteFails currentPrivileges
        backup.memberPrivileges =
      configurePrivileges oracle remoteFails currentPrivileges
        backup.memberPrivileges) ∧
    ((restoreOrg oracle remoteFails backup currentVariables currentPrivileges
        currentSecretNames currentRulesets envSecrets).calls).all
      settingsWriteOnly = true := by
  refine ⟨rfl, rfl, ?_, ?_, ?_⟩
  · unfold restoreVariables configureVariables
    refine congrArg concatOutcomes (List.map_congr_left ?_)
    intro c hc
    exact (stepVariable_precheck_eq oracle remoteFails c
      (mem_compare_not_isEqual _ _ hcv c hc)).symm
  · unfold restorePrivileges configurePrivileges
    refine congrArg concatOutcomes (List.map_congr_left ?_)
    intro c hc
    exact (stepPrivilege_precheck_eq oracle remoteFails c
      (mem_compare_not_isEqual _ _ hcp c hc)).symm
  · unfold restoreOrg
    simp only [ApplyOutcome.append, List.all_append]
    rw [Bool.and_eq_true, Bool.and_eq_true]
    refine ⟨?_, ?_, ?_⟩
    · unfold restoreVariables
      exact calls_all_concat _ _ (fun o ho => by
        obtain ⟨c, hc, rfl⟩ := List.mem_map.mp ho
        exact stepVariable_calls_settings oracle remoteFails false c)
    · exact restoreSecrets_calls_settings oracle remoteFails envSecrets
        backup.actionSecrets
    · unfold restorePrivileges
      exact calls_all_concat _ _ (fun o ho => by
        obtain ⟨c, hc, rfl⟩ := List.mem_map.mp ho
        exact stepPrivilege_calls_settings oracle remoteFails false c)

/-- Witness for `restore_settings_refinement` at the concrete snapshot
`{A: 1, B: 2}` against live variables `{A: 5}` with an always-confirming
user and an all-success remote. -/
theorem restore_settings_refinement_witness :
    (∀ p ∈ ([("A", JsVal.num 5)] : SettingsDiff.SettingsMap),
      p.2 ≠ JsVal.undefined) ∧
    (∀ p ∈ ([] : SettingsDiff.SettingsMap), p.2 ≠ JsVal.undefined) ∧
    ((SettingsDiff.compare [("A", .num 5)] [("A", .num 1), ("B", .num 2)] =
      [{ key := "A", type := .update, currentValue := .num 5, newValue := .num 1 },
       { key := "B", type := .add, currentValue := .undefined, newValue := .num 2 }]) ∧
     (restoreVariables (fun _ => true) (fun _ => none) [("A", .num 5)]
        [("A", .num 1), ("B", .num 2)] =
      ⟨["Variable: A", "Variable: B"], [], [],
       [RemoteCall.setActionVariable "A" (.num 1),
        RemoteCall.setActionVariable "B" (.num 2)]⟩) ∧
     (restoreVariables (fun _ => true) (fun _ => none) [("A", .num 5)]
        (⟨[("A", .num 1), ("B", .num 2)], [], [], [], []⟩ :
          BackupSettings).actionVariables =
      configureVariables (fun _ => true) (fun _ => none) [("A", .num 5)]
        (⟨[("A", .num 1), ("B", .num 2)], [], [], [], []⟩ :
          BackupSettings).actionVariables) ∧
     (restorePrivileges (fun _ => true) (fun _ => none) []
        (⟨[("A", .num 1), ("B", .num 2)], [], [], [], []⟩ :
          BackupSettings).memberPrivileges =
      configurePrivileges (fun _ => true) (fun _ => none) []
        (⟨[("A", .num 1), ("B", .num 2)], [], [], [], []⟩ :
          BackupSettings).memberPrivileges) ∧
     ((restoreOrg (fun _ => true) (fun _ => none)
        ⟨[("A", .num 1), ("B", .num 2)], [], [], [], []⟩ [("A", .num 5)] []
        [] [] (.ok [])).calls).all settingsWriteOnly = true) :=
  ⟨by simp, by simp,
    restore_settings_refinement (fun _ => true) (fun _ => none)
      ⟨[("A", .num 1), ("B", .num 2)], [], [], [], []⟩ [("A", .num 5)] [] []
      [] (.ok []) (by simp) (by simp)⟩

end ClaimC2Main
